import Mathlib

/-!
# Verification of the `gemini_mod` Go client against its specification

Shallow embedding of the repository's current revision:
* the `gemini` package client (`New`, functional options, `Generate`, `doRequest`)
  from the file beginning `package gemini` that validates the API key, enforces
  HTTPS base URLs, validates generation parameters, limits response sizes and
  truncates HTTP error bodies;
* the request/response data types of `gemini/types.go` (the current revision,
  whose `GenerationConfig.Temperature` is a `*float64` with `omitempty` and
  whose `Response.Text` concatenates all parts of the first candidate);
* the CLI entry point of `cmd/gemini/main.go` (the current revision, which
  joins all trailing arguments into the prompt).

Modelling conventions:
* Go `string` values that claims inspect byte-by-byte (HTTP bodies, error
  messages) are modelled as `List Char`; for the ASCII inputs the claims are
  about, Go's byte positions coincide with these character positions.
* Go `int` is modelled as `Int`, Go `float64` as `ℚ` (the claims involve only
  order comparisons and JSON round trips of ordinary decimal values).
* `encoding/json` serialization of the `Request` struct is modelled down to a
  JSON syntax tree (`Json`), mirroring struct tags (`omitempty`, field names);
  deserialization of HTTP response bodies into `Response` is kept as an
  abstract parameter `parse` of the operations, because the client treats it
  as an opaque library call.
* Network I/O (the `Doer` collaborator) is a function from a request to either
  a transport error or an `HttpResponse`.
-/

namespace GeminiMod

/-! ## Character-list string helpers used in theorem statements -/

/-- `beginsWith s sub` is true when `sub` is an initial segment of `s`. -/
def beginsWith : List Char → List Char → Bool
  | _, [] => true
  | [], _ :: _ => false
  | a :: as, b :: bs => a == b && beginsWith as bs

/-- `containsSub s sub` is true when `sub` occurs contiguously inside `s`. -/
def containsSub : List Char → List Char → Bool
  | s, sub =>
    match s with
    | [] => beginsWith [] sub
    | _ :: as => beginsWith s sub || containsSub as sub

/-! ## Data model (`gemini/types.go`, current revision) -/

/-- `Part` — a single text part of a request content block. -/
structure Part where
  text : String
deriving DecidableEq

/-- `Content` — a request content block holding parts. -/
structure Content where
  parts : List Part
deriving DecidableEq

/-- `GoogleSearch` — the empty search-grounding tool marker. -/
inductive GoogleSearch where
  | mk
deriving DecidableEq

/-- `Tool` — a tool available to the model (`GoogleSearch *GoogleSearch` with
`omitempty`, modelled as an `Option`). -/
structure Tool where
  googleSearch : Option GoogleSearch
deriving DecidableEq

/-- `GenerationConfig` — generation parameters.  In the current revision
`MaxOutputTokens int` carries `omitempty` and `Temperature *float64` carries
`omitempty`; the pointer is modelled as an `Option`. -/
structure GenerationConfig where
  maxOutputTokens : Int
  temperature : Option ℚ
deriving DecidableEq

/-- `Request` — body of the generateContent call. -/
structure Request where
  contents : List Content
  generationConfig : GenerationConfig
  tools : List Tool
deriving DecidableEq

/-- `ResponsePart` — one part of a candidate's content. -/
structure ResponsePart where
  text : String
deriving DecidableEq

/-- `ResponseContent` — the content of a candidate. -/
structure ResponseContent where
  parts : List ResponsePart
  role : String
deriving DecidableEq

/-- `SafetyRating` — category/probability string pair. -/
structure SafetyRating where
  category : String
  probability : String
deriving DecidableEq

/-- `Candidate` — one generated alternative. -/
structure Candidate where
  content : ResponseContent
  finishReason : String
  safetyRatings : List SafetyRating
deriving DecidableEq

/-- `UsageMetadata` — token counts. -/
structure UsageMetadata where
  promptTokenCount : Int
  candidatesTokenCount : Int
  totalTokenCount : Int
deriving DecidableEq

/-- `Response` — body of a successful generateContent reply. -/
structure Response where
  candidates : List Candidate
  usageMetadata : UsageMetadata
deriving DecidableEq

/-- `Response.Text` (current revision of `gemini/types.go`): empty string when
there are no candidates or the first candidate has no parts; the single part's
text when there is exactly one part; otherwise the concatenation of all parts
of the first candidate via a `strings.Builder`. -/
def Response.text (r : Response) : String :=
  match r.candidates with
  | [] => ""
  | c :: _ =>
    match c.content.parts with
    | [] => ""
    | [p] => p.text
    | p :: q :: rest => String.join ((p :: q :: rest).map ResponsePart.text)

/-! ## JSON model of `encoding/json` for the `Request` struct -/

/-- JSON syntax tree; `obj` keeps fields in serialization order. -/
inductive Json where
  | null
  | str (s : String)
  | num (q : ℚ)
  | boolean (b : Bool)
  | arr (elems : List Json)
  | obj (fields : List (String × Json))

/-- Field lookup in a JSON object (Go's decoder matches by tag name; the
objects produced by our marshaller never contain duplicate keys). -/
def lookupField (fields : List (String × Json)) (k : String) : Option Json :=
  (fields.find? (fun kv => kv.1 == k)).map (fun kv => kv.2)

/-- Whether a serialized object carries a field. -/
def Json.hasField : Json → String → Bool
  | .obj fs, k => fs.any (fun kv => kv.1 == k)
  | _, _ => false

/-- Marshal a `Part` (`json:"text"`). -/
def marshalPart (p : Part) : Json :=
  .obj [("text", .str p.text)]

/-- Marshal a `Content` (`json:"parts"`). -/
def marshalContent (c : Content) : Json :=
  .obj [("parts", .arr (c.parts.map marshalPart))]

/-- Marshal a `GenerationConfig`: `maxOutputTokens` has `omitempty` (omitted
when the Go zero value `0`), `temperature` is a pointer with `omitempty`
(omitted exactly when nil). -/
def marshalGenerationConfig (g : GenerationConfig) : Json :=
  .obj ((if g.maxOutputTokens = 0 then [] else
           [("maxOutputTokens", Json.num (g.maxOutputTokens : ℚ))]) ++
        (match g.temperature with
         | some t => [("temperature", Json.num t)]
         | none => []))

/-- Marshal a `Tool` (`googleSearch` pointer with `omitempty`). -/
def marshalTool (t : Tool) : Json :=
  .obj (match t.googleSearch with
        | some _ => [("googleSearch", Json.obj [])]
        | none => [])

/-- Marshal a `Request`: `contents` and `generationConfig` always present,
`tools` has `omitempty` (omitted when the slice is empty). -/
def marshalRequest (r : Request) : Json :=
  .obj ([("contents", Json.arr (r.contents.map marshalContent)),
         ("generationConfig", marshalGenerationConfig r.generationConfig)] ++
        (if r.tools.isEmpty then [] else
           [("tools", Json.arr (r.tools.map marshalTool))]))

/-- Unmarshal a list of JSON values elementwise (Go array-into-slice). -/
def unmarshalList (f : Json → Option α) : List Json → Option (List α)
  | [] => some []
  | j :: js =>
    match f j, unmarshalList f js with
    | some a, some as => some (a :: as)
    | _, _ => none

/-- Unmarshal a `Part`: missing field keeps the zero value, wrong type fails. -/
def unmarshalPart : Json → Option Part
  | .obj fs =>
    match lookupField fs "text" with
    | some (.str s) => some { text := s }
    | none => some { text := "" }
    | some _ => none
  | _ => none

/-- Unmarshal a `Content`. -/
def unmarshalContent : Json → Option Content
  | .obj fs =>
    match lookupField fs "parts" with
    | some (.arr es) => (unmarshalList unmarshalPart es).map (fun ps => { parts := ps })
    | none => some { parts := [] }
    | some _ => none
  | _ => none

/-- Unmarshal a `GenerationConfig`: a JSON number decodes into the Go `int`
field only when integral. -/
def unmarshalGenerationConfig : Json → Option GenerationConfig
  | .obj fs =>
    match
      (match lookupField fs "maxOutputTokens" with
       | some (.num q) => if q.den = 1 then some q.num else none
       | none => some 0
       | some _ => none),
      (match lookupField fs "temperature" with
       | some (.num q) => some (some q)
       | none => some none
       | some _ => none) with
    | some mot, some temp => some { maxOutputTokens := mot, temperature := temp }
    | _, _ => none
  | _ => none

/-- Unmarshal a `Tool`. -/
def unmarshalTool : Json → Option Tool
  | .obj fs =>
    match lookupField fs "googleSearch" with
    | some (.obj _) => some { googleSearch := some .mk }
    | none => some { googleSearch := none }
    | some _ => none
  | _ => none

/-- Unmarshal a `Request`. -/
def unmarshalRequest : Json → Option Request
  | .obj fs =>
    match
      (match lookupField fs "contents" with
       | some (.arr es) => unmarshalList unmarshalContent es
       | none => some []
       | some _ => none),
      (match lookupField fs "generationConfig" with
       | some j => unmarshalGenerationConfig j
       | none => some { maxOutputTokens := 0, temperature := none }),
      (match lookupField fs "tools" with
       | some (.arr es) => unmarshalList unmarshalTool es
       | none => some []
       | some _ => none) with
    | some cs, some gc, some ts =>
      some { contents := cs, generationConfig := gc, tools := ts }
    | _, _, _ => none
  | _ => none

/-! ## Client (`gemini` package, current revision) -/

/-- Constants from the source. -/
def defaultBaseURL : String := "https://generativelanguage.googleapis.com/v1beta/models"

/-- Default model name constant. -/
def defaultModel : String := "gemini-3-pro-preview"

/-- `maxResponseBytes = 10 * 1024 * 1024`. -/
def maxResponseBytes : Nat := 10 * 1024 * 1024

/-- `maxErrorBodyBytes = 1024`. -/
def maxErrorBodyBytes : Nat := 1024

/-- An outbound HTTP request as the client builds it: method, URL, the two
headers it sets, and the marshalled JSON body. -/
structure HttpRequest where
  method : String
  url : String
  contentType : String
  apiKeyHeader : String
  body : Json

/-- An executor's reply: status code and raw body bytes. -/
structure HttpResponse where
  statusCode : Int
  body : List Char
deriving DecidableEq

/-- `Doer` — executes one HTTP request, returning a transport error (its
message) or a response. -/
def Doer := HttpRequest → Except (List Char) HttpResponse

/-- Error results of the client; one constructor per `return …error` site in
the source, carrying the formatted message.  The source returns plain wrapped
`error` values, and the constructor records which site produced it. -/
inductive GeminiError where
  | configuration (msg : List Char)
  | validation (msg : List Char)
  | transport (msg : List Char)
  | sizeLimit (msg : List Char)
  | httpStatus (msg : List Char)
  | unmarshalFailure (msg : List Char)
deriving DecidableEq

/-- `Client` — API key, model, base URL and the injected executor. -/
structure Client where
  apiKey : String
  model : String
  baseURL : String
  doer : Doer

/-- The exported client options (`WithModel`, `WithDoer`, `WithBaseURL`). -/
inductive ClientOption where
  | withModel (model : String)
  | withDoer (d : Doer)
  | withBaseURL (url : String)

/-- Application of one option, as the `func(*Client)` closures do. -/
def applyOption (c : Client) : ClientOption → Client
  | .withModel m => { c with model := m }
  | .withDoer d => { c with doer := d }
  | .withBaseURL u => { c with baseURL := u }

/-- Message of the empty-API-key configuration error. -/
def emptyKeyMessage : List Char := "gemini: API key must not be empty".data

/-- Message of the insecure-base-URL configuration error
(`fmt.Errorf("gemini: base URL must use HTTPS, got %q", c.baseURL)`; the `%q`
quoting is modelled as surrounding double quotes). -/
def httpsMessage (baseURL : String) : List Char :=
  "gemini: base URL must use HTTPS, got \"".data ++ baseURL.data ++ "\"".data

/-- `New` (current revision): rejects an API key that is empty or all
whitespace (`strings.TrimSpace(apiKey) == ""` holds exactly when every
character is whitespace), applies defaults then options, and rejects a
resulting base URL that does not start with `"https://"`
(`strings.HasPrefix`, modelled by `beginsWith` on the character lists).
`defaultDoer` stands for the default `&http.Client{Timeout: defaultTimeout}`;
`New` only stores it and never invokes it. -/
def New (apiKey : String) (opts : List ClientOption) (defaultDoer : Doer) :
    Except GeminiError Client :=
  if apiKey.data.all (fun ch => ch.isWhitespace) then
    .error (.configuration emptyKeyMessage)
  else
    let c := opts.foldl applyOption
      { apiKey := apiKey, model := defaultModel, baseURL := defaultBaseURL,
        doer := defaultDoer }
    if beginsWith c.baseURL.data "https://".data then .ok c
    else .error (.configuration (httpsMessage c.baseURL))

/-- Per-call generation configuration. -/
structure generateConfig where
  maxTokens : Int
  temperature : ℚ
  googleSearch : Bool

/-- The exported generate options. -/
inductive GenerateOption where
  | withMaxTokens (n : Int)
  | withTemperature (t : ℚ)
  | withGoogleSearch

/-- Application of one generate option. -/
def applyGenerateOption (g : generateConfig) : GenerateOption → generateConfig
  | .withMaxTokens n => { g with maxTokens := n }
  | .withTemperature t => { g with temperature := t }
  | .withGoogleSearch => { g with googleSearch := true }

/-- Defaults (`maxTokens: 32000, temperature: 1.0`) with the options folded
over them, as `Generate` does before validating. -/
def resolveGenerateConfig (opts : List GenerateOption) : generateConfig :=
  opts.foldl applyGenerateOption
    { maxTokens := 32000, temperature := 1, googleSearch := false }

/-- The `Request` value `Generate` builds from the prompt and the resolved
configuration. -/
def buildRequestBody (prompt : String) (cfg : generateConfig) : Request :=
  { contents := [{ parts := [{ text := prompt }] }],
    generationConfig :=
      { maxOutputTokens := cfg.maxTokens, temperature := some cfg.temperature },
    tools := if cfg.googleSearch then [{ googleSearch := some .mk }] else [] }

/-- The HTTP request `doRequest` builds: marshalled body, POST to
`<baseURL>/<model>:generateContent`, JSON content type and the API key
header.  (`json.Marshal` cannot fail on these types, so that error branch of
the source is dead; `http.NewRequestWithContext` succeeds for the URLs the
client forms.) -/
def buildHttpRequest (c : Client) (reqBody : Request) : HttpRequest :=
  { method := "POST",
    url := c.baseURL ++ "/" ++ c.model ++ ":generateContent",
    contentType := "application/json",
    apiKeyHeader := c.apiKey,
    body := marshalRequest reqBody }

/-- Message of the size-limit error
(`fmt.Errorf("gemini: response exceeds %d byte limit", maxResponseBytes)`). -/
def sizeLimitMessage : List Char :=
  "gemini: response exceeds ".data ++ (toString maxResponseBytes).data ++
    " byte limit".data

/-- The HTTP error message for status `status` and (already truncated) body
excerpt `msg` (`fmt.Errorf("gemini: HTTP %d: %s", resp.StatusCode, msg)`). -/
def httpStatusMessage (status : Int) (msg : List Char) : List Char :=
  "gemini: HTTP ".data ++ (toString status).data ++ ": ".data ++ msg

/-- The truncated error-body excerpt: bodies longer than `maxErrorBodyBytes`
are cut there and the marker `"...(truncated)"` is appended. -/
def truncatedErrorBody (body : List Char) : List Char :=
  if body.length > maxErrorBodyBytes then
    body.take maxErrorBodyBytes ++ "...(truncated)".data
  else body

/-- Handling of an executor response (source lines after `c.doer.Do`): read at
most `maxResponseBytes+1` bytes (`io.LimitReader`), fail when over the
ceiling, then fail with status + truncated excerpt when the status is ≥ 400,
otherwise hand the body to the JSON decoder `parse` (kept abstract; its error
message is wrapped as `gemini: unmarshal response: …`). -/
def handleHttpResponse (parse : List Char → Except (List Char) Response)
    (resp : HttpResponse) : Except GeminiError Response :=
  let body := resp.body.take (maxResponseBytes + 1)
  if body.length > maxResponseBytes then
    .error (.sizeLimit sizeLimitMessage)
  else if resp.statusCode ≥ 400 then
    .error (.httpStatus (httpStatusMessage resp.statusCode (truncatedErrorBody body)))
  else
    match parse body with
    | .error e => .error (.unmarshalFailure ("gemini: unmarshal response: ".data ++ e))
    | .ok r => .ok r

/-- Handling of the executor's result: a transport error is wrapped as
`gemini: do request: …`, a response goes to `handleHttpResponse`. -/
def handleDoerResult (parse : List Char → Except (List Char) Response)
    (res : Except (List Char) HttpResponse) : Except GeminiError Response :=
  match res with
  | .error e => .error (.transport ("gemini: do request: ".data ++ e))
  | .ok resp => handleHttpResponse parse resp

/-- `doRequest`: build the HTTP request, run the injected executor on it and
handle the outcome. -/
def doRequest (c : Client) (parse : List Char → Except (List Char) Response)
    (reqBody : Request) : Except GeminiError Response :=
  handleDoerResult parse (c.doer (buildHttpRequest c reqBody))

/-- Message of the non-positive max-tokens validation error. -/
def maxTokensMessage (n : Int) : List Char :=
  "gemini: maxTokens must be positive, got ".data ++ (toString n).data

/-- Message of the negative temperature validation error (the `%f` rendering
is abstracted by `toString`). -/
def temperatureMessage (t : ℚ) : List Char :=
  "gemini: temperature must be non-negative, got ".data ++ (toString t).data

/-- `Generate` (current revision): resolve defaults and options, reject
`maxTokens ≤ 0` and `temperature < 0` before any network activity, build the
request body and perform the round trip. -/
def Generate (c : Client) (parse : List Char → Except (List Char) Response)
    (prompt : String) (opts : List GenerateOption) : Except GeminiError Response :=
  let cfg := resolveGenerateConfig opts
  if cfg.maxTokens ≤ 0 then
    .error (.validation (maxTokensMessage cfg.maxTokens))
  else if cfg.temperature < 0 then
    .error (.validation (temperatureMessage cfg.temperature))
  else
    doRequest c parse (buildRequestBody prompt cfg)

/-! ## CLI entry point (`cmd/gemini/main.go`, current revision) -/

/-- What `main` does after configuration is loaded: either print usage to
standard error and exit(1), or invoke the client with a prompt. -/
inductive CliStep where
  | usageExit (stderrLine : String) (exitCode : Int)
  | invoke (prompt : String)
deriving DecidableEq

/-- The argument handling of `main`: with fewer than two elements in
`os.Args` (program name plus at least one trailing argument) it prints
`usage: gemini <prompt>` to standard error and exits 1 — before the client is
constructed; otherwise the prompt is `strings.Join(os.Args[1:], " ")`. -/
def cliMain (args : List String) : CliStep :=
  if args.length < 2 then
    .usageExit "usage: gemini <prompt>" 1
  else
    .invoke (String.intercalate " " (args.drop 1))

/-! ## Derived and spec-side definitions used by theorem statements -/

deriving instance DecidableEq for Except

/-- The effect of one client option on the base URL alone. -/
def applyOptionBaseURL (u : String) : ClientOption → String
  | .withBaseURL v => v
  | _ => u

/-- The base URL that results after all options are applied over the default
(later options win), used to state the construction claims without reference
to `New` itself. -/
def resolveBaseURL (opts : List ClientOption) : String :=
  opts.foldl applyOptionBaseURL defaultBaseURL

/-- The accessor as the specification words it: the concatenation, in order
and with no separator, of the text of every part of the first candidate's
content, the empty string when there is no candidate, and later candidates
ignored.  Stated separately so the implementation can be proved to refine
it. -/
def responseTextSpec (r : Response) : String :=
  match r.candidates with
  | [] => ""
  | c :: _ => String.join (c.content.parts.map ResponsePart.text)

/-! ## Helper lemmas -/

theorem beginsWith_append (l r : List Char) : beginsWith (l ++ r) l = true := by
  induction l with
  | nil => cases r <;> rfl
  | cons a as ih => simp [beginsWith, ih]

theorem beginsWith_length_le {s sub : List Char} (h : beginsWith s sub = true) :
    sub.length ≤ s.length := by
  induction s generalizing sub with
  | nil =>
    cases sub with
    | nil => simp
    | cons b bs => simp [beginsWith] at h
  | cons a as ih =>
    cases sub with
    | nil => simp
    | cons b bs =>
      simp only [beginsWith, Bool.and_eq_true] at h
      have := ih h.2
      simp only [List.length_cons]
      omega

theorem containsSub_nil_right (s : List Char) : containsSub s [] = true := by
  cases s <;> simp [containsSub, beginsWith]

theorem containsSub_append_mid (pre sub post : List Char) :
    containsSub (pre ++ (sub ++ post)) sub = true := by
  induction pre with
  | nil =>
    cases sub with
    | nil => simp [containsSub_nil_right]
    | cons b bs =>
      have hb := beginsWith_append (b :: bs) post
      simp only [List.cons_append] at hb
      simp [containsSub, hb]
  | cons a as ih =>
    simp [containsSub, ih]

theorem containsSub_false_of_longer {s sub : List Char} (h : s.length < sub.length) :
    containsSub s sub = false := by
  induction s with
  | nil =>
    cases sub with
    | nil => simp at h
    | cons b bs => rfl
  | cons a as ih =>
    cases sub with
    | nil => simp at h
    | cons b bs =>
      have h1 : beginsWith (a :: as) (b :: bs) = false := by
        cases hb : beginsWith (a :: as) (b :: bs) with
        | false => rfl
        | true =>
          have := beginsWith_length_le hb
          simp only [List.length_cons] at this h
          omega
      have h2 : containsSub as (b :: bs) = false := by
        refine ih ?_
        simp only [List.length_cons] at h ⊢
        omega
      simp [containsSub, h1, h2]

theorem foldl_applyOption_baseURL (opts : List ClientOption) (c : Client) :
    (opts.foldl applyOption c).baseURL = opts.foldl applyOptionBaseURL c.baseURL := by
  induction opts generalizing c with
  | nil => rfl
  | cons o os ih =>
    simp only [List.foldl_cons, ih]
    congr 1
    cases o <;> rfl

theorem generate_sizeLimit_of_big_body (k m u : String)
    (parse : List Char → Except (List Char) Response) (prompt : String)
    (opts : List GenerateOption) (resp : HttpResponse)
    (h1 : 0 < (resolveGenerateConfig opts).maxTokens)
    (h2 : 0 ≤ (resolveGenerateConfig opts).temperature)
    (hbig : maxResponseBytes < resp.body.length) :
    Generate ⟨k, m, u, fun _ => .ok resp⟩ parse prompt opts
      = .error (.sizeLimit sizeLimitMessage) := by
  simp only [Generate, doRequest, handleDoerResult, handleHttpResponse]
  rw [if_neg (by omega : ¬ (resolveGenerateConfig opts).maxTokens ≤ 0),
      if_neg (not_lt.mpr h2),
      if_pos (by rw [List.length_take]; omega :
        (resp.body.take (maxResponseBytes + 1)).length > maxResponseBytes)]

/-! ## Claim theorems -/

/-- **C1** Client construction fails with a configuration error if and only if
the API key is empty or all-whitespace, or the base URL resulting after all
options are applied does not start with `"https://"`; the failure (and its
error value) is independent of the injected executor, so no network call is
performed; and for every non-blank key with an https base URL construction
succeeds. -/
theorem new_fails_iff_blank_key_or_insecure_base_url
    (apiKey : String) (opts : List ClientOption) (dd dd2 : Doer) :
    ((∃ e, New apiKey opts dd = .error e) ↔
      (apiKey.data.all (fun ch => ch.isWhitespace) = true ∨
       beginsWith (resolveBaseURL opts).data "https://".data = false))
    ∧ (∀ e, New apiKey opts dd = .error e →
        (∃ msg, e = .configuration msg) ∧ New apiKey opts dd2 = .error e)
    ∧ (apiKey.data.all (fun ch => ch.isWhitespace) = false →
       beginsWith (resolveBaseURL opts).data "https://".data = true →
       ∃ c, New apiKey opts dd = .ok c) := by
  by_cases hb : apiKey.data.all (fun ch => ch.isWhitespace) = true
  · have hNew : ∀ d : Doer, New apiKey opts d = .error (.configuration emptyKeyMessage) := by
      intro d
      unfold New
      rw [if_pos hb]
    refine ⟨⟨fun _ => Or.inl hb, fun _ => ⟨_, hNew dd⟩⟩, ?_, ?_⟩
    · intro e he
      rw [hNew dd] at he
      injection he with h
      subst h
      exact ⟨⟨_, rfl⟩, hNew dd2⟩
    · intro h1 _
      rw [hb] at h1
      simp at h1
  · rw [Bool.not_eq_true] at hb
    have hNew : ∀ d : Doer, New apiKey opts d =
        (if beginsWith (resolveBaseURL opts).data "https://".data then
          .ok (opts.foldl applyOption
            { apiKey := apiKey, model := defaultModel, baseURL := defaultBaseURL,
              doer := d })
         else .error (.configuration (httpsMessage (resolveBaseURL opts)))) := by
      intro d
      have hB : (opts.foldl applyOption
          { apiKey := apiKey, model := defaultModel, baseURL := defaultBaseURL,
            doer := d }).baseURL = resolveBaseURL opts := by
        rw [foldl_applyOption_baseURL]
        rfl
      unfold New
      rw [if_neg (by simp [hb])]
      simp only [hB]
    by_cases hs : beginsWith (resolveBaseURL opts).data "https://".data = true
    · have hOk : ∀ d : Doer, New apiKey opts d = .ok (opts.foldl applyOption
          { apiKey := apiKey, model := defaultModel, baseURL := defaultBaseURL,
            doer := d }) := by
        intro d
        rw [hNew d, if_pos hs]
      refine ⟨⟨?_, ?_⟩, ?_, ?_⟩
      · rintro ⟨e, he⟩
        rw [hOk dd] at he
        cases he
      · rintro (h | h)
        · rw [hb] at h
          cases h
        · rw [hs] at h
          cases h
      · intro e he
        rw [hOk dd] at he
        cases he
      · intro _ _
        exact ⟨_, hOk dd⟩
    · rw [Bool.not_eq_true] at hs
      have hErr : ∀ d : Doer,
          New apiKey opts d = .error (.configuration (httpsMessage (resolveBaseURL opts))) := by
        intro d
        rw [hNew d, if_neg (by simp [hs])]
      refine ⟨⟨fun _ => Or.inr hs, fun _ => ⟨_, hErr dd⟩⟩, ?_, ?_⟩
      · intro e he
        rw [hErr dd] at he
        injection he with h
        subst h
        exact ⟨⟨_, rfl⟩, hErr dd2⟩
      · intro _ h2
        rw [hs] at h2
        cases h2

/-- Witness for C1: a whitespace-only key fails, a non-blank key with an
https override succeeds, and a non-blank key with an http override fails. -/
theorem new_fails_iff_blank_key_or_insecure_base_url_witness :
    (∃ e, New "  " [] (fun _ => .error []) = .error e)
    ∧ (∃ c, New "key" [ClientOption.withBaseURL "https://example.com"]
        (fun _ => .error []) = .ok c)
    ∧ (∃ e, New "key" [ClientOption.withBaseURL "http://example.com"]
        (fun _ => .error []) = .error e) := by
  refine ⟨?_, ?_, ?_⟩
  · exact (new_fails_iff_blank_key_or_insecure_base_url "  " []
      (fun _ => .error []) (fun _ => .error [])).1.mpr (Or.inl (by decide))
  · exact (new_fails_iff_blank_key_or_insecure_base_url "key"
      [ClientOption.withBaseURL "https://example.com"]
      (fun _ => .error []) (fun _ => .error [])).2.2 (by decide) (by decide)
  · exact (new_fails_iff_blank_key_or_insecure_base_url "key"
      [ClientOption.withBaseURL "http://example.com"]
      (fun _ => .error []) (fun _ => .error [])).1.mpr (Or.inr (by decide))

/-- **C2** When the resolved max tokens is ≤ 0 or the resolved temperature is
< 0, `Generate` returns a validation error, and its result is independent of
the injected executor — the executor is never invoked. -/
theorem generate_invalid_params_validation_error_before_executor
    (k m u : String) (d d2 : Doer)
    (parse : List Char → Except (List Char) Response) (prompt : String)
    (opts : List GenerateOption)
    (h : (resolveGenerateConfig opts).maxTokens ≤ 0 ∨
         (resolveGenerateConfig opts).temperature < 0) :
    (∃ msg, Generate ⟨k, m, u, d⟩ parse prompt opts = .error (.validation msg))
    ∧ Generate ⟨k, m, u, d⟩ parse prompt opts = Generate ⟨k, m, u, d2⟩ parse prompt opts := by
  simp only [Generate]
  by_cases h1 : (resolveGenerateConfig opts).maxTokens ≤ 0
  · simp only [if_pos h1]
    exact ⟨⟨_, rfl⟩, trivial⟩
  · have h2 : (resolveGenerateConfig opts).temperature < 0 := h.resolve_left h1
    simp only [if_neg h1, if_pos h2]
    exact ⟨⟨_, rfl⟩, trivial⟩

/-- Witness for C2 at max tokens 0 and two different executors. -/
theorem generate_invalid_params_validation_error_before_executor_witness :
    (∃ msg, Generate ⟨"k", "m", "https://u", fun _ => .error []⟩ (fun _ => .error [])
        "p" [GenerateOption.withMaxTokens 0] = .error (.validation msg))
    ∧ Generate ⟨"k", "m", "https://u", fun _ => .error []⟩ (fun _ => .error [])
        "p" [GenerateOption.withMaxTokens 0]
      = Generate ⟨"k", "m", "https://u", fun _ => .ok ⟨200, []⟩⟩ (fun _ => .error [])
        "p" [GenerateOption.withMaxTokens 0] :=
  generate_invalid_params_validation_error_before_executor "k" "m" "https://u"
    (fun _ => .error []) (fun _ => .ok ⟨200, []⟩) (fun _ => .error []) "p"
    [GenerateOption.withMaxTokens 0] (Or.inl (by decide))

/-- **C3** With any options whose resolved parameters are valid, the `Request`
that `Generate` builds has exactly one content entry holding exactly one part
whose text is the prompt verbatim, and `Generate` performs the round trip on
exactly that request body. -/
theorem generate_builds_single_content_single_part_verbatim
    (k m u : String) (d : Doer)
    (parse : List Char → Except (List Char) Response) (prompt : String)
    (opts : List GenerateOption)
    (h1 : 0 < (resolveGenerateConfig opts).maxTokens)
    (h2 : 0 ≤ (resolveGenerateConfig opts).temperature) :
    (buildRequestBody prompt (resolveGenerateConfig opts)).contents
      = [{ parts := [{ text := prompt }] }]
    ∧ Generate ⟨k, m, u, d⟩ parse prompt opts
      = doRequest ⟨k, m, u, d⟩ parse (buildRequestBody prompt (resolveGenerateConfig opts)) := by
  refine ⟨rfl, ?_⟩
  simp only [Generate]
  rw [if_neg (by omega : ¬ (resolveGenerateConfig opts).maxTokens ≤ 0),
      if_neg (not_lt.mpr h2)]

/-- Witness for C3 at the default options and a prompt with leading/trailing
whitespace and special characters. -/
theorem generate_builds_single_content_single_part_verbatim_witness :
    (buildRequestBody "  hi\n\"there\"  " (resolveGenerateConfig [])).contents
      = [{ parts := [{ text := "  hi\n\"there\"  " }] }]
    ∧ Generate ⟨"k", "m", "https://u", fun _ => .error []⟩ (fun _ => .error [])
        "  hi\n\"there\"  " []
      = doRequest ⟨"k", "m", "https://u", fun _ => .error []⟩ (fun _ => .error [])
        (buildRequestBody "  hi\n\"there\"  " (resolveGenerateConfig [])) :=
  generate_builds_single_content_single_part_verbatim "k" "m" "https://u"
    (fun _ => .error []) (fun _ => .error []) "  hi\n\"there\"  " []
    (by decide) (by decide)

theorem containsSub_append_end (pre sub : List Char) : containsSub (pre ++ sub) sub = true := by
  have h := containsSub_append_mid pre sub []
  simpa using h

theorem containsSub_of_eq {s : List Char} (pre sub post : List Char)
    (h : s = pre ++ (sub ++ post)) : containsSub s sub = true :=
  h ▸ containsSub_append_mid pre sub post

theorem generate_httpStatus_of_error_status (k m u : String)
    (parse : List Char → Except (List Char) Response) (prompt : String)
    (opts : List GenerateOption) (resp : HttpResponse)
    (h1 : 0 < (resolveGenerateConfig opts).maxTokens)
    (h2 : 0 ≤ (resolveGenerateConfig opts).temperature)
    (hst : 400 ≤ resp.statusCode)
    (hsz : resp.body.length ≤ maxResponseBytes) :
    Generate ⟨k, m, u, fun _ => .ok resp⟩ parse prompt opts
      = .error (.httpStatus (httpStatusMessage resp.statusCode (truncatedErrorBody resp.body))) := by
  simp only [Generate, doRequest, handleDoerResult, handleHttpResponse]
  rw [if_neg (by omega : ¬ (resolveGenerateConfig opts).maxTokens ≤ 0),
      if_neg (not_lt.mpr h2)]
  rw [List.take_of_length_le (le_trans hsz (Nat.le_succ _))]
  rw [if_neg (by omega : ¬ resp.body.length > maxResponseBytes), if_pos hst]

/-- **C4 (amended)** For every executor response with status ≥ 400 whose body
is within the 10 MiB ceiling, `Generate` fails with an error whose message
contains the status code and the body excerpt truncated to
`maxErrorBodyBytes` with the `"...(truncated)"` marker appended when
truncation occurred; a truncated message has the fixed length
`13 + |status digits| + 2 + 1024 + 14` (1056 bytes for a three-digit status),
and a body longer than the message never appears in it; and a response with
status < 400 never yields an HTTP-status error. -/
theorem generate_http_status_error_with_truncated_excerpt
    (k m u : String) (parse : List Char → Except (List Char) Response)
    (prompt : String) (opts : List GenerateOption) (resp resp2 : HttpResponse)
    (mm : List Char)
    (h1 : 0 < (resolveGenerateConfig opts).maxTokens)
    (h2 : 0 ≤ (resolveGenerateConfig opts).temperature)
    (hst : 400 ≤ resp.statusCode)
    (hsz : resp.body.length ≤ maxResponseBytes) :
    Generate ⟨k, m, u, fun _ => .ok resp⟩ parse prompt opts
      = .error (.httpStatus (httpStatusMessage resp.statusCode (truncatedErrorBody resp.body)))
    ∧ containsSub (httpStatusMessage resp.statusCode (truncatedErrorBody resp.body))
        (toString resp.statusCode).data = true
    ∧ (maxErrorBodyBytes < resp.body.length →
        containsSub (httpStatusMessage resp.statusCode (truncatedErrorBody resp.body))
          "...(truncated)".data = true
        ∧ (httpStatusMessage resp.statusCode (truncatedErrorBody resp.body)).length
            = 13 + (toString resp.statusCode).data.length + 2 + maxErrorBodyBytes + 14)
    ∧ ((httpStatusMessage resp.statusCode (truncatedErrorBody resp.body)).length
          < resp.body.length →
        containsSub (httpStatusMessage resp.statusCode (truncatedErrorBody resp.body))
          resp.body = false)
    ∧ (resp2.statusCode < 400 →
        Generate ⟨k, m, u, fun _ => .ok resp2⟩ parse prompt opts
          ≠ .error (.httpStatus mm)) := by
  refine ⟨generate_httpStatus_of_error_status k m u parse prompt opts resp h1 h2 hst hsz,
    ?_, ?_, ?_, ?_⟩
  · refine containsSub_of_eq "gemini: HTTP ".data (toString resp.statusCode).data
      (": ".data ++ truncatedErrorBody resp.body) ?_
    simp [httpStatusMessage, List.append_assoc]
  · intro hbig
    constructor
    · refine containsSub_of_eq
        ("gemini: HTTP ".data ++ (toString resp.statusCode).data ++ ": ".data ++
          resp.body.take maxErrorBodyBytes) "...(truncated)".data [] ?_
      simp [httpStatusMessage, truncatedErrorBody, if_pos hbig, List.append_assoc]
    · simp only [httpStatusMessage, truncatedErrorBody, if_pos hbig,
        List.length_append, List.length_take]
      have hmin : min maxErrorBodyBytes resp.body.length = maxErrorBodyBytes :=
        Nat.min_eq_left (Nat.le_of_lt hbig)
      have e1 : ("gemini: HTTP ".data).length = 13 := by decide
      have e2 : ((": ").data).length = 2 := by decide
      have e3 : (("...(truncated)").data).length = 14 := by decide
      rw [hmin, e1, e2, e3]
      omega
  · intro hlong
    exact containsSub_false_of_longer hlong
  · intro hlt
    simp only [Generate, doRequest, handleDoerResult, handleHttpResponse]
    rw [if_neg (by omega : ¬ (resolveGenerateConfig opts).maxTokens ≤ 0),
        if_neg (not_lt.mpr h2),
        if_neg (by omega : ¬ resp2.statusCode ≥ 400)]
    split
    · simp
    · cases hp : parse (resp2.body.take (maxResponseBytes + 1)) <;> simp

/-- **C4 counterexample** An executor response with HTTP status 500 whose
body exceeds the 10 MiB ceiling makes `Generate` fail with the size-limit
error, whose message contains neither the status code `"500"` nor the
truncation marker — refuting the claim that *every* response with status
≥ 400 yields an error message containing the status code and a truncated
body excerpt. -/
theorem generate_status_500_big_body_message_lacks_status_code :
    Generate ⟨"k", "m", defaultBaseURL,
        fun _ => .ok ⟨500, List.replicate (maxResponseBytes + 1) 'a'⟩⟩
      (fun _ => .error []) "p" []
      = .error (.sizeLimit sizeLimitMessage)
    ∧ containsSub sizeLimitMessage (toString (500 : Int)).data = false
    ∧ containsSub sizeLimitMessage "...(truncated)".data = false := by
  refine ⟨?_, by decide, by decide⟩
  exact generate_sizeLimit_of_big_body "k" "m" defaultBaseURL (fun _ => .error []) "p" []
    ⟨500, List.replicate (maxResponseBytes + 1) 'a'⟩ (by decide) (by decide)
    (by simp)

/-- Witness for the amended C4 at a 500 response with a 2000-byte body: the
message carries the truncation marker, has length 1056 < 2000, and does not
contain the full original body. -/
theorem generate_http_status_error_with_truncated_excerpt_witness :
    Generate ⟨"k", "m", defaultBaseURL, fun _ => .ok ⟨500, List.replicate 2000 'a'⟩⟩
        (fun _ => .error []) "p" []
      = .error (.httpStatus (httpStatusMessage 500 (truncatedErrorBody (List.replicate 2000 'a'))))
    ∧ containsSub (httpStatusMessage 500 (truncatedErrorBody (List.replicate 2000 'a')))
        "...(truncated)".data = true
    ∧ (httpStatusMessage 500 (truncatedErrorBody (List.replicate 2000 'a'))).length = 1056
    ∧ containsSub (httpStatusMessage 500 (truncatedErrorBody (List.replicate 2000 'a')))
        (List.replicate 2000 'a') = false := by
  have h := generate_http_status_error_with_truncated_excerpt "k" "m" defaultBaseURL
    (fun _ => .error []) "p" [] ⟨500, List.replicate 2000 'a'⟩ ⟨200, []⟩ []
    (by decide) (by decide) (by decide)
    (by show (List.replicate 2000 'a').length ≤ maxResponseBytes
        rw [List.length_replicate]
        norm_num [maxResponseBytes])
  have hbig : maxErrorBodyBytes < (List.replicate 2000 'a').length := by
    rw [List.length_replicate]
    norm_num [maxErrorBodyBytes]
  have hlen : (httpStatusMessage 500 (truncatedErrorBody (List.replicate 2000 'a'))).length
      = 1056 := by
    have := (h.2.2.1 hbig).2
    rw [this]
    decide
  refine ⟨h.1, (h.2.2.1 hbig).1, hlen, h.2.2.2.1 ?_⟩
  rw [hlen, List.length_replicate]
  norm_num

/-- **C5** For every executor response whose body exceeds the 10 MiB ceiling,
`Generate` fails with the size-limit error; the result is the same for any
other status code and any other JSON decoder (the status is never inspected
and the body is never deserialized); and the result coincides with that for
the body cut at ceiling + 1 bytes (no more than ceiling + 1 bytes are ever
read). -/
theorem generate_size_limit_error_without_deserialization
    (k m u : String) (parse parse2 : List Char → Except (List Char) Response)
    (prompt : String) (opts : List GenerateOption) (resp : HttpResponse) (s2 : Int)
    (h1 : 0 < (resolveGenerateConfig opts).maxTokens)
    (h2 : 0 ≤ (resolveGenerateConfig opts).temperature)
    (hbig : maxResponseBytes < resp.body.length) :
    Generate ⟨k, m, u, fun _ => .ok resp⟩ parse prompt opts
      = .error (.sizeLimit sizeLimitMessage)
    ∧ Generate ⟨k, m, u, fun _ => .ok ⟨s2, resp.body⟩⟩ parse2 prompt opts
      = .error (.sizeLimit sizeLimitMessage)
    ∧ Generate ⟨k, m, u, fun _ => .ok ⟨resp.statusCode, resp.body.take (maxResponseBytes + 1)⟩⟩
        parse prompt opts
      = Generate ⟨k, m, u, fun _ => .ok resp⟩ parse prompt opts := by
  have hA := generate_sizeLimit_of_big_body k m u parse prompt opts resp h1 h2 hbig
  have hB := generate_sizeLimit_of_big_body k m u parse2 prompt opts ⟨s2, resp.body⟩ h1 h2 hbig
  have hC := generate_sizeLimit_of_big_body k m u parse prompt opts
    ⟨resp.statusCode, resp.body.take (maxResponseBytes + 1)⟩ h1 h2
    (by simp only [List.length_take]; omega)
  exact ⟨hA, hB, by rw [hC, hA]⟩

/-- Witness for C5: a body one byte over the ceiling, with a decoder that
would succeed and a different status code, still yields the size-limit
error. -/
theorem generate_size_limit_error_without_deserialization_witness :
    Generate ⟨"k", "m", defaultBaseURL,
        fun _ => .ok ⟨200, List.replicate (maxResponseBytes + 1) 'a'⟩⟩
      (fun _ => .error []) "p" []
      = .error (.sizeLimit sizeLimitMessage)
    ∧ Generate ⟨"k", "m", defaultBaseURL,
        fun _ => .ok ⟨500, List.replicate (maxResponseBytes + 1) 'a'⟩⟩
      (fun _ => .ok ⟨[], ⟨0, 0, 0⟩⟩) "p" []
      = .error (.sizeLimit sizeLimitMessage) :=
  have h := generate_size_limit_error_without_deserialization "k" "m" defaultBaseURL
    (fun _ => .error []) (fun _ => .ok ⟨[], ⟨0, 0, 0⟩⟩) "p" []
    ⟨200, List.replicate (maxResponseBytes + 1) 'a'⟩ 500
    (by decide) (by decide) (by simp)
  ⟨h.1, h.2.1⟩

/-- **C6** The accessor equals its specification: empty string for zero
candidates and for a first candidate with zero parts, otherwise the ordered,
separator-free concatenation of all parts of the first candidate; later
candidates never influence the result. -/
theorem response_text_first_candidate_concatenation (r : Response) :
    Response.text r = responseTextSpec r
    ∧ (r.candidates = [] → Response.text r = "")
    ∧ (∀ (c : Candidate) (cs cs2 : List Candidate) (u1 u2 : UsageMetadata),
        Response.text ⟨c :: cs, u1⟩ = Response.text ⟨c :: cs2, u2⟩) := by
  refine ⟨?_, ?_, ?_⟩
  · obtain ⟨cands, um⟩ := r
    cases cands with
    | nil => rfl
    | cons c cs =>
      cases hp : c.content.parts with
      | nil => simp [Response.text, responseTextSpec, hp, String.join]
      | cons p ps =>
        cases ps with
        | nil => simp [Response.text, responseTextSpec, hp, String.join]
        | cons q rest => simp [Response.text, responseTextSpec, hp]
  · intro h
    simp [Response.text, h]
  · intro c cs cs2 u1 u2
    rfl

/-- Witness for C6: a response with two parts in the first candidate and a
second candidate that is ignored, and an empty response. -/
theorem response_text_first_candidate_concatenation_witness :
    Response.text
      ⟨[⟨⟨[⟨"Hello "⟩, ⟨"back!"⟩], "model"⟩, "STOP", []⟩,
        ⟨⟨[⟨"ignored"⟩], "model"⟩, "STOP", []⟩], ⟨5, 10, 15⟩⟩
      = responseTextSpec
      ⟨[⟨⟨[⟨"Hello "⟩, ⟨"back!"⟩], "model"⟩, "STOP", []⟩,
        ⟨⟨[⟨"ignored"⟩], "model"⟩, "STOP", []⟩], ⟨5, 10, 15⟩⟩
    ∧ Response.text ⟨[], ⟨0, 0, 0⟩⟩ = "" :=
  ⟨(response_text_first_candidate_concatenation _).1,
   (response_text_first_candidate_concatenation ⟨[], ⟨0, 0, 0⟩⟩).2.1 rfl⟩

theorem lookupField_cons_self (k : String) (j : Json) (rest : List (String × Json)) :
    lookupField ((k, j) :: rest) k = some j := by
  simp [lookupField, List.find?_cons_of_pos]

theorem lookupField_cons_ne (k k2 : String) (h : (k2 == k) = false) (j : Json)
    (rest : List (String × Json)) :
    lookupField ((k2, j) :: rest) k = lookupField rest k := by
  simp [lookupField, List.find?_cons_of_neg, h]

theorem unmarshalList_map_marshal {α : Type} (f : Json → Option α) (g : α → Json)
    (h : ∀ x, f (g x) = some x) (l : List α) :
    unmarshalList f (l.map g) = some l := by
  induction l with
  | nil => rfl
  | cons x xs ih => simp [unmarshalList, h, ih]

theorem unmarshalPart_marshalPart (p : Part) : unmarshalPart (marshalPart p) = some p := rfl

theorem unmarshalContent_marshalContent (c : Content) :
    unmarshalContent (marshalContent c) = some c := by
  simp [marshalContent, unmarshalContent, lookupField_cons_self,
    unmarshalList_map_marshal unmarshalPart marshalPart unmarshalPart_marshalPart]

theorem unmarshalTool_marshalTool (t : Tool) : unmarshalTool (marshalTool t) = some t := by
  obtain ⟨gs⟩ := t
  cases gs with
  | none => rfl
  | some g => cases g; rfl

theorem unmarshalGenerationConfig_marshal (g : GenerationConfig)
    (h : g.maxOutputTokens ≠ 0) :
    unmarshalGenerationConfig (marshalGenerationConfig g) = some g := by
  obtain ⟨mot, temp⟩ := g
  simp only at h
  cases temp with
  | none =>
    simp only [marshalGenerationConfig, if_neg h, List.append_nil]
    have h2 : lookupField [("maxOutputTokens", Json.num (mot : ℚ))] "temperature" = none := by
      rw [lookupField_cons_ne _ _ (by decide)]
      rfl
    simp [unmarshalGenerationConfig, lookupField_cons_self, h2,
      Rat.den_intCast, Rat.num_intCast]
  | some t =>
    simp only [marshalGenerationConfig, if_neg h, List.cons_append, List.nil_append]
    have h2 : lookupField
        [("maxOutputTokens", Json.num (mot : ℚ)), ("temperature", Json.num t)]
        "temperature" = some (Json.num t) := by
      rw [lookupField_cons_ne _ _ (by decide)]
      exact lookupField_cons_self _ _ _
    simp [unmarshalGenerationConfig, lookupField_cons_self, h2,
      Rat.den_intCast, Rat.num_intCast]

theorem unmarshalRequest_marshalRequest (r : Request)
    (h : r.generationConfig.maxOutputTokens ≠ 0) :
    unmarshalRequest (marshalRequest r) = some r := by
  obtain ⟨cs, gc, ts⟩ := r
  simp only at h
  have hContents := unmarshalList_map_marshal unmarshalContent marshalContent
    unmarshalContent_marshalContent cs
  have hTools := unmarshalList_map_marshal unmarshalTool marshalTool
    unmarshalTool_marshalTool ts
  have hGC : unmarshalGenerationConfig (marshalGenerationConfig gc) = some gc :=
    unmarshalGenerationConfig_marshal _ h
  cases ts with
  | nil =>
    simp only [marshalRequest, List.isEmpty_nil, if_pos, List.cons_append,
      List.nil_append, List.append_nil]
    have h2 : lookupField
        [("contents", Json.arr (cs.map marshalContent)),
         ("generationConfig", marshalGenerationConfig gc)]
        "generationConfig" = some (marshalGenerationConfig gc) := by
      rw [lookupField_cons_ne _ _ (by decide)]
      exact lookupField_cons_self _ _ _
    have h3 : lookupField
        [("contents", Json.arr (cs.map marshalContent)),
         ("generationConfig", marshalGenerationConfig gc)]
        "tools" = none := by
      rw [lookupField_cons_ne _ _ (by decide), lookupField_cons_ne _ _ (by decide)]
      rfl
    simp [unmarshalRequest, lookupField_cons_self, h2, h3, hContents, hGC]
  | cons t0 ts0 =>
    simp only [marshalRequest, List.isEmpty_cons, Bool.false_eq_true, if_neg,
      List.cons_append, List.nil_append]
    have h2 : lookupField
        [("contents", Json.arr (cs.map marshalContent)),
         ("generationConfig", marshalGenerationConfig gc),
         ("tools", Json.arr ((t0 :: ts0).map marshalTool))]
        "generationConfig" = some (marshalGenerationConfig gc) := by
      rw [lookupField_cons_ne _ _ (by decide)]
      exact lookupField_cons_self _ _ _
    have h3 : lookupField
        [("contents", Json.arr (cs.map marshalContent)),
         ("generationConfig", marshalGenerationConfig gc),
         ("tools", Json.arr ((t0 :: ts0).map marshalTool))]
        "tools" = some (Json.arr ((t0 :: ts0).map marshalTool)) := by
      rw [lookupField_cons_ne _ _ (by decide), lookupField_cons_ne _ _ (by decide)]
      exact lookupField_cons_self _ _ _
    simp only [if_false, unmarshalRequest, lookupField_cons_self, h2, h3, hContents,
      hGC, hTools]

/-- **C7** Serializing a `Request` with valid generation parameters and
deserializing the result yields the original request; an explicit temperature
of 0.0 appears in the serialized generation config rather than being omitted,
and the request always carries its generation config. -/
theorem request_json_round_trip (r : Request)
    (hmax : 0 < r.generationConfig.maxOutputTokens)
    (htemp : ∀ t, r.generationConfig.temperature = some t → 0 ≤ t) :
    unmarshalRequest (marshalRequest r) = some r
    ∧ (r.generationConfig.temperature = some 0 →
        Json.hasField (marshalGenerationConfig r.generationConfig) "temperature" = true)
    ∧ Json.hasField (marshalRequest r) "generationConfig" = true := by
  refine ⟨unmarshalRequest_marshalRequest r (by omega), ?_, ?_⟩
  · intro h0
    simp [marshalGenerationConfig, Json.hasField, h0, List.any_append]
  · simp [marshalRequest, Json.hasField]

/-- Witness for C7 at a request with temperature exactly 0. -/
theorem request_json_round_trip_witness :
    unmarshalRequest (marshalRequest
        ⟨[⟨[⟨"hi"⟩]⟩], ⟨100, some 0⟩, [⟨some .mk⟩]⟩)
      = some ⟨[⟨[⟨"hi"⟩]⟩], ⟨100, some 0⟩, [⟨some .mk⟩]⟩
    ∧ Json.hasField (marshalGenerationConfig ⟨100, some 0⟩) "temperature" = true :=
  have h := request_json_round_trip ⟨[⟨[⟨"hi"⟩]⟩], ⟨100, some 0⟩, [⟨some .mk⟩]⟩
    (by decide) (by intro t ht; injection ht with h0; exact h0 ▸ le_refl 0)
  ⟨h.1, h.2.1 rfl⟩

/-- **C8 counterexample** A client whose API key is `"topsecret"` and whose
executor returns status 400 with a body equal to that key produces an error
message that contains the API key — refuting the claim that the error text of
`New` or `Generate` never contains the key for *every* executor behaviour,
including bodies with arbitrary external content. -/
theorem generate_error_message_can_echo_api_key :
    Generate ⟨"topsecret", "m", defaultBaseURL, fun _ => .ok ⟨400, "topsecret".data⟩⟩
        (fun _ => .error []) "p" []
      = .error (.httpStatus (httpStatusMessage 400 "topsecret".data))
    ∧ containsSub (httpStatusMessage 400 "topsecret".data) "topsecret".data = true := by
  exact ⟨by decide, by decide⟩

/-- **C8 (amended)** The client itself never contributes the API key to error
text: with the executor's outcome held fixed, `Generate`'s entire result is
identical for any two API keys (so error text can contain the key only when
the executor-returned content itself does), and every `New` error is one of
two configuration messages built only from fixed text and the resolved base
URL. -/
theorem generate_error_text_independent_of_api_key
    (k k2 m u : String) (res : Except (List Char) HttpResponse)
    (parse : List Char → Except (List Char) Response)
    (prompt : String) (opts : List GenerateOption)
    (apiKey : String) (opts2 : List ClientOption) (dd : Doer) (e : GeminiError) :
    Generate ⟨k, m, u, fun _ => res⟩ parse prompt opts
      = Generate ⟨k2, m, u, fun _ => res⟩ parse prompt opts
    ∧ (New apiKey opts2 dd = .error e →
        e = .configuration emptyKeyMessage
        ∨ e = .configuration (httpsMessage (resolveBaseURL opts2))) := by
  constructor
  · rfl
  · intro he
    unfold New at he
    by_cases hb : apiKey.data.all (fun ch => ch.isWhitespace) = true
    · rw [if_pos hb] at he
      injection he with h
      exact Or.inl h.symm
    · rw [if_neg hb] at he
      have hB : (opts2.foldl applyOption
          { apiKey := apiKey, model := defaultModel, baseURL := defaultBaseURL,
            doer := dd }).baseURL = resolveBaseURL opts2 := by
        rw [foldl_applyOption_baseURL]
        rfl
      simp only [hB] at he
      by_cases hs : beginsWith (resolveBaseURL opts2).data "https://".data = true
      · rw [if_pos hs] at he
        cases he
      · rw [if_neg hs] at he
        injection he with h
        exact Or.inr h.symm

/-- Witness for the amended C8: two clients with different keys and the same
executor outcome return the same result. -/
theorem generate_error_text_independent_of_api_key_witness :
    Generate ⟨"key-one", "m", defaultBaseURL, fun _ => .ok ⟨400, "denied".data⟩⟩
        (fun _ => .error []) "p" []
      = Generate ⟨"key-two", "m", defaultBaseURL, fun _ => .ok ⟨400, "denied".data⟩⟩
        (fun _ => .error []) "p" [] :=
  (generate_error_text_independent_of_api_key "key-one" "key-two" "m" defaultBaseURL
    (.ok ⟨400, "denied".data⟩) (fun _ => .error []) "p" [] " " []
    (fun _ => .error []) (.configuration emptyKeyMessage)).1

/-- **C9** The CLI passes to `Generate` a prompt equal to all trailing
arguments joined (not just the first), and with no trailing argument it
prints a usage line to standard error and exits with the non-zero status 1
without reaching client construction. -/
theorem cli_prompt_joins_all_trailing_args
    (args : List String) (prog : String) (rest : List String) :
    (args.length < 2 → cliMain args = .usageExit "usage: gemini <prompt>" 1 ∧ (1 : Int) ≠ 0)
    ∧ (rest ≠ [] → cliMain (prog :: rest) = .invoke (String.intercalate " " rest)) := by
  constructor
  · intro h
    exact ⟨by simp [cliMain, h], by decide⟩
  · intro h
    have hlen : ¬ (prog :: rest).length < 2 := by
      cases rest with
      | nil => exact absurd rfl h
      | cons a as =>
        simp only [List.length_cons]
        omega
    simp [cliMain, hlen]
    exact List.length_pos.mpr h

/-- Witness for C9: no trailing argument gives the usage exit; two trailing
arguments are joined with a space. -/
theorem cli_prompt_joins_all_trailing_args_witness :
    cliMain ["gemini"] = .usageExit "usage: gemini <prompt>" 1
    ∧ cliMain ["gemini", "hello", "world"] = .invoke (String.intercalate " " ["hello", "world"]) :=
  ⟨((cli_prompt_joins_all_trailing_args ["gemini"] "gemini" []).1 (by decide)).1,
   (cli_prompt_joins_all_trailing_args ["gemini", "hello", "world"] "gemini"
     ["hello", "world"]).2 (by decide)⟩

/-- **C10** `Generate` never validates the prompt: for every prompt — empty
and whitespace-only included — with valid generation parameters the call
reduces to handing the executor the built request (whose body is the
marshalled request containing the prompt verbatim), and the result is never a
validation error. -/
theorem generate_no_prompt_validation
    (k m u : String) (d : Doer)
    (parse : List Char → Except (List Char) Response) (prompt : String)
    (opts : List GenerateOption) (msg : List Char)
    (h1 : 0 < (resolveGenerateConfig opts).maxTokens)
    (h2 : 0 ≤ (resolveGenerateConfig opts).temperature) :
    Generate ⟨k, m, u, d⟩ parse prompt opts
      = handleDoerResult parse
          (d (buildHttpRequest ⟨k, m, u, d⟩
            (buildRequestBody prompt (resolveGenerateConfig opts))))
    ∧ (buildHttpRequest ⟨k, m, u, d⟩ (buildRequestBody prompt (resolveGenerateConfig opts))).body
      = marshalRequest (buildRequestBody prompt (resolveGenerateConfig opts))
    ∧ (buildRequestBody prompt (resolveGenerateConfig opts)).contents
      = [{ parts := [{ text := prompt }] }]
    ∧ Generate ⟨k, m, u, d⟩ parse prompt opts ≠ .error (.validation msg) := by
  have hG : Generate ⟨k, m, u, d⟩ parse prompt opts
      = handleDoerResult parse
          (d (buildHttpRequest ⟨k, m, u, d⟩
            (buildRequestBody prompt (resolveGenerateConfig opts)))) := by
    simp only [Generate, doRequest]
    rw [if_neg (by omega : ¬ (resolveGenerateConfig opts).maxTokens ≤ 0),
        if_neg (not_lt.mpr h2)]
  refine ⟨hG, rfl, rfl, ?_⟩
  rw [hG]
  cases d (buildHttpRequest ⟨k, m, u, d⟩
      (buildRequestBody prompt (resolveGenerateConfig opts))) with
  | error e => simp [handleDoerResult]
  | ok resp =>
    simp only [handleDoerResult, handleHttpResponse]
    split
    · simp
    · split
      · simp
      · cases parse (resp.body.take (maxResponseBytes + 1)) <;> simp

/-- Witness for C10 at the empty prompt. -/
theorem generate_no_prompt_validation_witness :
    (buildRequestBody "" (resolveGenerateConfig [])).contents
      = [{ parts := [{ text := "" }] }]
    ∧ Generate ⟨"k", "m", defaultBaseURL, fun _ => .error []⟩ (fun _ => .error []) "" []
      ≠ .error (.validation []) :=
  have h := generate_no_prompt_validation "k" "m" defaultBaseURL (fun _ => .error [])
    (fun _ => .error []) "" [] [] (by decide) (by decide)
  ⟨h.2.2.1, h.2.2.2⟩

end GeminiMod
